import Mathlib

/-!
Shallow embedding of the VHL Music drag-and-drop interaction controller
(src/scripts/drag_and_drop.js).

Draggable elements and target elements are identified by their index in the
two jQuery collections captured at construction time (indices below nD,
resp. nT).  DOM classes and attributes become boolean markers, jQuery event
attachment becomes per-element boolean flags (one flag per registered event
type, because jQuery registers the same handler function separately for each
type it was bound with), and the opaque checkMatch callback is modelled by a
log of the invocations it receives.  Calls to preventDefault are counted.
-/

/-- Which collection an element belongs to: draggable or target. -/
inductive Side
  | dr
  | tg
deriving DecidableEq, Repr

/-- One invocation of the checkMatch callback.  The first argument in the
source is either the jQuery collection of selected elements (keyboard path)
or the stored dragElement, which is undefined when no dragstart has ever
fired; hence an Option of a list of draggable indices. -/
structure Call where
  drags : Option (List Nat)
  tgts : List Nat
deriving DecidableEq, Repr

/-- A boolean marker (presence of a CSS class or of an attribute), indexed
by element index. -/
abbrev Marker := Nat → Bool

/-- Set the marker on a single element, as addClass / removeClass /
toggleClass on a one-element jQuery object. -/
def updAt (j : Nat) (b : Bool) (m : Marker) : Marker :=
  fun i => if i = j then b else m i

/-- Set the marker on every element of a collection of size n, as addClass /
removeClass / attr on a whole jQuery collection. -/
def updAll (n : Nat) (b : Bool) (m : Marker) : Marker :=
  fun i => if i < n then b else m i

/-- State of one DragAndDrop controller instance.  Fields mirror, in order:
the collection sizes, per-draggable attributes and classes and handler
flags, per-target attributes and classes and handler flags, the context
keydown handler, the application role, the stored dragElement reference,
and the observation logs (callback invocations, preventDefault count, last
collection passed to jQuery focus). -/
structure Dnd where
  nD : Nat
  nT : Nat
  draggableAttr : Marker
  tabD : Marker
  grabbed : Nat → Option Bool
  movingC : Marker
  selDC : Marker
  dragHD : Marker
  clickHD : Marker
  keypressHD : Marker
  tabT : Marker
  dropeff : Marker
  availC : Marker
  hoverC : Marker
  selTC : Marker
  dragHT : Marker
  clickHT : Marker
  keypressHT : Marker
  ctxKeydown : Bool
  roleApp : Bool
  dragElement : Option Nat
  calls : List Call
  prevented : Nat
  focusLog : List Nat

/-- Mirrors _selectedDraggable: the draggables carrying the is-selected
class, in document order. -/
def selectedDraggables (s : Dnd) : List Nat :=
  (List.range s.nD).filter s.selDC

/-- Mirrors _selectedTarget: the targets carrying the is-selected class. -/
def selectedTargets (s : Dnd) : List Nat :=
  (List.range s.nT).filter s.selTC

/-- hasClass is-selected for one element of a mixed collection. -/
def isSel (s : Dnd) : Side × Nat → Bool
  | (Side.dr, i) => s.selDC i
  | (Side.tg, i) => s.selTC i

/-- toggleClass with an explicit boolean on one element of a collection. -/
def toggleSel (b : Bool) (st : Dnd) (el : Side × Nat) : Dnd :=
  match el with
  | (Side.dr, i) => { st with selDC := updAt i b st.selDC }
  | (Side.tg, i) => { st with selTC := updAt i b st.selTC }

/-- First half of _keyboardSelect (lines 279-290): compute the new selected
state from hasClass, choose the set to clear by reading the draggable
attribute of the first element of the collection (undefined on targets and
on collections whose first element lost the attribute, which routes to the
target branch), clear that whole set, then toggleClass every element of the
collection to the new state. -/
def kbToggle (s : Dnd) (coll : List (Side × Nat)) : Dnd :=
  let newState := ! coll.any (isSel s)
  let dragBranch : Bool :=
    match coll.head? with
    | some (Side.dr, i) => s.draggableAttr i
    | _ => false
  let s1 :=
    if dragBranch then { s with selDC := updAll s.nD false s.selDC }
    else { s with selTC := updAll s.nT false s.selTC }
  coll.foldl (toggleSel newState) s1

/-- Second half of _keyboardSelect (lines 291-297): if both filtered
selections are nonempty, run checkMatch with them. -/
def dispatchIfPaired (s : Dnd) : Dnd :=
  let ds := selectedDraggables s
  let ts := selectedTargets s
  if !ds.isEmpty && !ts.isEmpty then
    { s with calls := s.calls ++ [⟨some ds, ts⟩] }
  else s

/-- Mirrors _keyboardSelect (lines 279-298). -/
def keyboardSelect (s : Dnd) (coll : List (Side × Nat)) : Dnd :=
  dispatchIfPaired (kbToggle s coll)

/-- Mirrors _handleDragStart (lines 65-81).  The dataTransfer writes go to
the platform event object, outside this state. -/
def handleDragStart (s : Dnd) (d : Nat) : Dnd :=
  { s with dragElement := some d,
           movingC := updAt d true s.movingC,
           availC := updAll s.nT true s.availC,
           dropeff := updAll s.nT true s.dropeff,
           grabbed := fun i => if i = d then some true else s.grabbed i }

/-- Mirrors _handleDragEnd (lines 88-96).  The handler reads the stored
dragElement, not the event target; if it is still undefined the very first
statement of the handler throws, so no field changes in that case. -/
def handleDragEnd (s : Dnd) : Dnd :=
  match s.dragElement with
  | none => s
  | some de =>
    { s with movingC := updAt de false s.movingC,
             availC := updAll s.nT false s.availC,
             grabbed := fun i => if i = de then some false else s.grabbed i }

/-- Mirrors _handleDragEnter (lines 106-116). -/
def handleDragEnter (s : Dnd) (t : Nat) : Dnd :=
  { s with hoverC := updAt t true s.hoverC }

/-- Mirrors _handleDragLeave (lines 123-129). -/
def handleDragLeave (s : Dnd) (t : Nat) : Dnd :=
  { s with hoverC := updAt t false s.hoverC }

/-- Mirrors _handleDragOver (lines 137-145): unconditional preventDefault,
then the hovered class is added (twice in the source, idempotently). -/
def handleDragOver (s : Dnd) (t : Nat) : Dnd :=
  { s with prevented := s.prevented + 1,
           hoverC := updAt t true s.hoverC }

/-- Mirrors _handleDrop (lines 153-163): preventDefault, unhover the target,
and call checkMatch with the stored dragElement (undefined when no
dragstart ever fired) and the drop target. -/
def handleDrop (s : Dnd) (t : Nat) : Dnd :=
  { s with prevented := s.prevented + 1,
           hoverC := updAt t false s.hoverC,
           calls := s.calls ++ [⟨s.dragElement.map (fun d => [d]), [t]⟩] }

/-- The input events the controller consumes.  Drag events carry the index
of the element they are delivered on; key events carry the key code. -/
inductive DEvent
  | dragstart (d : Nat)
  | dragend (d : Nat)
  | dragenter (t : Nat)
  | dragleave (t : Nat)
  | dragover (t : Nat)
  | drop (t : Nat)
  | clickDr (d : Nat)
  | clickTg (t : Nat)
  | keypressDr (d : Nat) (code : Nat)
  | keypressTg (t : Nat) (code : Nat)
  | keydownCtx (code : Nat)
deriving DecidableEq, Repr

def ENTER_KEY : Nat := 13
def SPACE_BAR : Nat := 32
def ESCAPE_KEY : Nat := 27

/-- The key test in the click-or-keypress handlers (lines 225-227 and
233-235) for the keypress case. -/
def activateKey (c : Nat) : Bool :=
  c = ENTER_KEY || c = SPACE_BAR

/-- An evt.preventDefault call. -/
def pdef (s : Dnd) : Dnd :=
  { s with prevented := s.prevented + 1 }

/-- Deliver one input event: a handler body runs exactly when the matching
handler flag is still attached on the element (or on the context for
keydown).  Mirrors the dispatch set up by _addDragEventHandlers (lines
172-185) and _addKeyboardEventHandlers (lines 217-250). -/
def step (s : Dnd) : DEvent → Dnd
  | DEvent.dragstart d => if s.dragHD d then handleDragStart s d else s
  | DEvent.dragend d => if s.dragHD d then handleDragEnd s else s
  | DEvent.dragenter t => if s.dragHT t then handleDragEnter s t else s
  | DEvent.dragleave t => if s.dragHT t then handleDragLeave s t else s
  | DEvent.dragover t => if s.dragHT t then handleDragOver s t else s
  | DEvent.drop t => if s.dragHT t then handleDrop s t else s
  | DEvent.clickDr d =>
      if s.clickHD d then pdef (keyboardSelect s [(Side.dr, d)]) else s
  | DEvent.clickTg t =>
      if s.clickHT t then pdef (keyboardSelect s [(Side.tg, t)]) else s
  | DEvent.keypressDr d c =>
      if s.keypressHD d then
        if activateKey c then pdef (keyboardSelect s [(Side.dr, d)]) else s
      else s
  | DEvent.keypressTg t c =>
      if s.keypressHT t then
        if activateKey c then pdef (keyboardSelect s [(Side.tg, t)]) else s
      else s
  | DEvent.keydownCtx c =>
      if s.ctxKeydown then
        if c = ESCAPE_KEY then
          let sel := selectedDraggables s
          let s1 := keyboardSelect s (sel.map (fun i => (Side.dr, i)))
          let s2 := if sel.isEmpty then s1 else { s1 with focusLog := sel }
          pdef s2
        else s
      else s

/-- Deliver a sequence of input events in order. -/
def run (s : Dnd) (evs : List DEvent) : Dnd :=
  evs.foldl step s

/-- The element state before the controller touches it: no classes, no
attributes, no handlers, no stored drag element, empty logs. -/
def blank (nD nT : Nat) : Dnd :=
  { nD := nD, nT := nT,
    draggableAttr := fun _ => false, tabD := fun _ => false,
    grabbed := fun _ => none, movingC := fun _ => false,
    selDC := fun _ => false,
    dragHD := fun _ => false, clickHD := fun _ => false,
    keypressHD := fun _ => false,
    tabT := fun _ => false, dropeff := fun _ => false,
    availC := fun _ => false, hoverC := fun _ => false,
    selTC := fun _ => false,
    dragHT := fun _ => false, clickHT := fun _ => false,
    keypressHT := fun _ => false,
    ctxKeydown := false, roleApp := false, dragElement := none,
    calls := [], prevented := 0, focusLog := [] }

/-- Mirrors init (lines 304-320): tabindex and draggable attributes,
initial assistive attributes, and attachment of every handler. -/
def Dnd.init (s : Dnd) : Dnd :=
  { s with tabD := updAll s.nD true s.tabD,
           tabT := updAll s.nT true s.tabT,
           draggableAttr := updAll s.nD true s.draggableAttr,
           grabbed := fun i => if i < s.nD then some false else s.grabbed i,
           dropeff := updAll s.nT true s.dropeff,
           roleApp := true,
           dragHD := updAll s.nD true s.dragHD,
           dragHT := updAll s.nT true s.dragHT,
           clickHD := updAll s.nD true s.clickHD,
           clickHT := updAll s.nT true s.clickHT,
           keypressHD := updAll s.nD true s.keypressHD,
           keypressHT := updAll s.nT true s.keypressHT,
           ctxKeydown := true }

/-- The constructor (lines 44-50): capture the collections and call init. -/
def mkDnD (nD nT : Nat) : Dnd :=
  (blank nD nT).init

/-- Mirrors _removeDragEventHandlers (lines 194-205) on the given element
lists: both drag handler registrations come off. -/
def removeDragEventHandlers (s : Dnd) (ds ts : List Nat) : Dnd :=
  { s with dragHD := fun i => if ds.contains i then false else s.dragHD i,
           dragHT := fun i => if ts.contains i then false else s.dragHT i }

/-- Mirrors _removeKeyboardEventHandlers (lines 259-262): the source calls
off with the single type click, so only the click registration comes off;
the keypress registration of the same handler function, and the context
keydown handler, stay attached. -/
def removeKeyboardEventHandlers (s : Dnd) (ds ts : List Nat) : Dnd :=
  { s with clickHD := fun i => if ds.contains i then false else s.clickHD i,
           clickHT := fun i => if ts.contains i then false else s.clickHT i }

/-- Mirrors cleanup (lines 329-335): remove draggable and tabindex
attributes, then the two removal helpers over the whole collections. -/
def Dnd.cleanup (s : Dnd) : Dnd :=
  let s1 := { s with draggableAttr := updAll s.nD false s.draggableAttr,
                     tabD := updAll s.nD false s.tabD,
                     tabT := updAll s.nT false s.tabT }
  removeKeyboardEventHandlers
    (removeDragEventHandlers s1 (List.range s1.nD) (List.range s1.nT))
    (List.range s1.nD) (List.range s1.nT)

/-- Mirrors disableMatching (lines 343-358): a no-op unless both arguments
are present; otherwise strip the attributes from the pair and run the two
removal helpers on just those two elements. -/
def Dnd.disableMatching (s : Dnd) (dOpt tOpt : Option Nat) : Dnd :=
  match dOpt, tOpt with
  | some d, some t =>
    let s1 := { s with draggableAttr := updAt d false s.draggableAttr,
                       grabbed := fun i => if i = d then none else s.grabbed i,
                       tabD := updAt d false s.tabD,
                       dropeff := updAt t false s.dropeff }
    removeKeyboardEventHandlers (removeDragEventHandlers s1 [d] [t]) [d] [t]
  | _, _ => s

/-! ### Helper lemmas about filtered selections and the toggle core -/

theorem filter_range_clear (n : Nat) (m : Marker) :
    (List.range n).filter (updAll n false m) = [] := by
  rw [List.filter_eq_nil_iff]
  intro a ha
  simp [updAll, List.mem_range.mp ha]

theorem filter_range_single (n d : Nat) (b : Bool) (p : Nat → Bool)
    (hp : ∀ i, i < n → p i = if i = d then b else false) :
    (List.range n).filter p = if d < n ∧ b = true then [d] else [] := by
  induction n with
  | zero => simp
  | succ n ih =>
    rw [List.range_succ, List.filter_append,
        ih (fun i hi => hp i (Nat.lt_succ_of_lt hi))]
    have hn := hp n (Nat.lt_succ_self n)
    by_cases hd : n = d
    · subst hd
      cases b <;> simp [hn, Nat.lt_irrefl, Nat.lt_succ_self]
    · have hne : ¬(n = d) := hd
      have hiff : (d < n ∧ b = true) ↔ (d < n + 1 ∧ b = true) := by
        constructor
        · rintro ⟨h1, h2⟩; exact ⟨Nat.lt_succ_of_lt h1, h2⟩
        · rintro ⟨h1, h2⟩
          refine ⟨?_, h2⟩
          rcases Nat.lt_succ_iff_lt_or_eq.mp h1 with h | h
          · exact h
          · exact absurd h.symm hne
      simp [hn, hne, hiff]

theorem dispatchIfPaired_selDC (s : Dnd) : (dispatchIfPaired s).selDC = s.selDC := by
  simp only [dispatchIfPaired]
  split <;> rfl

theorem dispatchIfPaired_selTC (s : Dnd) : (dispatchIfPaired s).selTC = s.selTC := by
  simp only [dispatchIfPaired]
  split <;> rfl

theorem dispatchIfPaired_nD (s : Dnd) : (dispatchIfPaired s).nD = s.nD := by
  simp only [dispatchIfPaired]
  split <;> rfl

theorem dispatchIfPaired_nT (s : Dnd) : (dispatchIfPaired s).nT = s.nT := by
  simp only [dispatchIfPaired]
  split <;> rfl

theorem dispatchIfPaired_draggableAttr (s : Dnd) :
    (dispatchIfPaired s).draggableAttr = s.draggableAttr := by
  simp only [dispatchIfPaired]
  split <;> rfl

theorem dispatchIfPaired_clickHD (s : Dnd) : (dispatchIfPaired s).clickHD = s.clickHD := by
  simp only [dispatchIfPaired]
  split <;> rfl

theorem dispatchIfPaired_keypressHD (s : Dnd) :
    (dispatchIfPaired s).keypressHD = s.keypressHD := by
  simp only [dispatchIfPaired]
  split <;> rfl

theorem dispatchIfPaired_clickHT (s : Dnd) : (dispatchIfPaired s).clickHT = s.clickHT := by
  simp only [dispatchIfPaired]
  split <;> rfl

theorem dispatchIfPaired_keypressHT (s : Dnd) :
    (dispatchIfPaired s).keypressHT = s.keypressHT := by
  simp only [dispatchIfPaired]
  split <;> rfl

theorem dispatchIfPaired_dragHD (s : Dnd) : (dispatchIfPaired s).dragHD = s.dragHD := by
  simp only [dispatchIfPaired]
  split <;> rfl

theorem dispatchIfPaired_dragHT (s : Dnd) : (dispatchIfPaired s).dragHT = s.dragHT := by
  simp only [dispatchIfPaired]
  split <;> rfl

theorem dispatchIfPaired_ctxKeydown (s : Dnd) :
    (dispatchIfPaired s).ctxKeydown = s.ctxKeydown := by
  simp only [dispatchIfPaired]
  split <;> rfl

theorem dispatchIfPaired_dragElement (s : Dnd) :
    (dispatchIfPaired s).dragElement = s.dragElement := by
  simp only [dispatchIfPaired]
  split <;> rfl

theorem dispatchIfPaired_movingC (s : Dnd) : (dispatchIfPaired s).movingC = s.movingC := by
  simp only [dispatchIfPaired]
  split <;> rfl

theorem dispatchIfPaired_availC (s : Dnd) : (dispatchIfPaired s).availC = s.availC := by
  simp only [dispatchIfPaired]
  split <;> rfl

theorem dispatchIfPaired_hoverC (s : Dnd) : (dispatchIfPaired s).hoverC = s.hoverC := by
  simp only [dispatchIfPaired]
  split <;> rfl

theorem dispatchIfPaired_focusLog (s : Dnd) : (dispatchIfPaired s).focusLog = s.focusLog := by
  simp only [dispatchIfPaired]
  split <;> rfl

theorem dispatchIfPaired_calls (s : Dnd) :
    (dispatchIfPaired s).calls =
      if !(selectedDraggables s).isEmpty && !(selectedTargets s).isEmpty then
        s.calls ++ [⟨some (selectedDraggables s), selectedTargets s⟩]
      else s.calls := by
  simp only [dispatchIfPaired]
  split <;> rfl

theorem selectedDraggables_dispatchIfPaired (s : Dnd) :
    selectedDraggables (dispatchIfPaired s) = selectedDraggables s := by
  unfold selectedDraggables
  rw [dispatchIfPaired_nD, dispatchIfPaired_selDC]

theorem selectedTargets_dispatchIfPaired (s : Dnd) :
    selectedTargets (dispatchIfPaired s) = selectedTargets s := by
  unfold selectedTargets
  rw [dispatchIfPaired_nT, dispatchIfPaired_selTC]

theorem kbToggle_dr (s : Dnd) (d : Nat) (h : s.draggableAttr d = true) :
    kbToggle s [(Side.dr, d)] =
      { s with selDC := updAt d (!s.selDC d) (updAll s.nD false s.selDC) } := by
  simp [kbToggle, isSel, toggleSel, h]

theorem kbToggle_tg (s : Dnd) (t : Nat) :
    kbToggle s [(Side.tg, t)] =
      { s with selTC := updAt t (!s.selTC t) (updAll s.nT false s.selTC) } := by
  simp [kbToggle, isSel, toggleSel]

theorem kbToggle_nil (s : Dnd) :
    kbToggle s [] = { s with selTC := updAll s.nT false s.selTC } := by
  simp [kbToggle]

theorem keyboardSelect_dr_selDC (s : Dnd) (d : Nat) (h : s.draggableAttr d = true) :
    (keyboardSelect s [(Side.dr, d)]).selDC =
      updAt d (!s.selDC d) (updAll s.nD false s.selDC) := by
  rw [keyboardSelect, kbToggle_dr s d h, dispatchIfPaired_selDC]

theorem keyboardSelect_dr_selTC (s : Dnd) (d : Nat) (h : s.draggableAttr d = true) :
    (keyboardSelect s [(Side.dr, d)]).selTC = s.selTC := by
  rw [keyboardSelect, kbToggle_dr s d h, dispatchIfPaired_selTC]

theorem keyboardSelect_dr_selectedD (s : Dnd) (d : Nat) (h : s.draggableAttr d = true) :
    selectedDraggables (keyboardSelect s [(Side.dr, d)]) =
      if d < s.nD ∧ s.selDC d = false then [d] else [] := by
  rw [keyboardSelect, selectedDraggables_dispatchIfPaired, kbToggle_dr s d h]
  unfold selectedDraggables
  have : ((({ s with selDC := updAt d (!s.selDC d) (updAll s.nD false s.selDC) } : Dnd)).nD)
      = s.nD := rfl
  rw [this]
  rw [filter_range_single s.nD d (!s.selDC d)
    (updAt d (!s.selDC d) (updAll s.nD false s.selDC))
    (by
      intro i hi
      by_cases hid : i = d <;> simp [updAt, updAll, hid, hi])]
  by_cases hsel : s.selDC d = false <;> simp [hsel]

theorem keyboardSelect_dr_selectedT (s : Dnd) (d : Nat) (h : s.draggableAttr d = true) :
    selectedTargets (keyboardSelect s [(Side.dr, d)]) = selectedTargets s := by
  rw [keyboardSelect, selectedTargets_dispatchIfPaired, kbToggle_dr s d h]
  unfold selectedTargets
  rfl

theorem keyboardSelect_tg_selTC (s : Dnd) (t : Nat) :
    (keyboardSelect s [(Side.tg, t)]).selTC =
      updAt t (!s.selTC t) (updAll s.nT false s.selTC) := by
  rw [keyboardSelect, kbToggle_tg, dispatchIfPaired_selTC]

theorem keyboardSelect_tg_selDC (s : Dnd) (t : Nat) :
    (keyboardSelect s [(Side.tg, t)]).selDC = s.selDC := by
  rw [keyboardSelect, kbToggle_tg, dispatchIfPaired_selDC]

theorem keyboardSelect_tg_selectedT (s : Dnd) (t : Nat) :
    selectedTargets (keyboardSelect s [(Side.tg, t)]) =
      if t < s.nT ∧ s.selTC t = false then [t] else [] := by
  rw [keyboardSelect, selectedTargets_dispatchIfPaired, kbToggle_tg]
  unfold selectedTargets
  have : ((({ s with selTC := updAt t (!s.selTC t) (updAll s.nT false s.selTC) } : Dnd)).nT)
      = s.nT := rfl
  rw [this]
  rw [filter_range_single s.nT t (!s.selTC t)
    (updAt t (!s.selTC t) (updAll s.nT false s.selTC))
    (by
      intro i hi
      by_cases hit : i = t <;> simp [updAt, updAll, hit, hi])]
  by_cases hsel : s.selTC t = false <;> simp [hsel]

theorem keyboardSelect_tg_selectedD (s : Dnd) (t : Nat) :
    selectedDraggables (keyboardSelect s [(Side.tg, t)]) = selectedDraggables s := by
  rw [keyboardSelect, selectedDraggables_dispatchIfPaired, kbToggle_tg]
  unfold selectedDraggables
  rfl

theorem keyboardSelect_nil_selTC (s : Dnd) :
    (keyboardSelect s []).selTC = updAll s.nT false s.selTC := by
  rw [keyboardSelect, kbToggle_nil, dispatchIfPaired_selTC]

theorem keyboardSelect_nil_selDC (s : Dnd) :
    (keyboardSelect s []).selDC = s.selDC := by
  rw [keyboardSelect, kbToggle_nil, dispatchIfPaired_selDC]

theorem keyboardSelect_nil_selectedT (s : Dnd) :
    selectedTargets (keyboardSelect s []) = [] := by
  rw [keyboardSelect, selectedTargets_dispatchIfPaired, kbToggle_nil]
  unfold selectedTargets
  exact filter_range_clear s.nT s.selTC

theorem keyboardSelect_nil_selectedD (s : Dnd) :
    selectedDraggables (keyboardSelect s []) = selectedDraggables s := by
  rw [keyboardSelect, selectedDraggables_dispatchIfPaired, kbToggle_nil]
  unfold selectedDraggables
  rfl

theorem keyboardSelect_nil_calls (s : Dnd) :
    (keyboardSelect s []).calls = s.calls := by
  rw [keyboardSelect, dispatchIfPaired_calls]
  rw [show selectedTargets (kbToggle s []) = [] from by
    rw [kbToggle_nil]; exact filter_range_clear s.nT s.selTC]
  simp [kbToggle_nil]

/-- The toggleClass fold only changes the two is-selected markers. -/
theorem foldl_toggleSel_frame (b : Bool) (coll : List (Side × Nat)) (st : Dnd) :
    (coll.foldl (toggleSel b) st).nD = st.nD ∧
    (coll.foldl (toggleSel b) st).nT = st.nT ∧
    (coll.foldl (toggleSel b) st).draggableAttr = st.draggableAttr ∧
    (coll.foldl (toggleSel b) st).tabD = st.tabD ∧
    (coll.foldl (toggleSel b) st).grabbed = st.grabbed ∧
    (coll.foldl (toggleSel b) st).movingC = st.movingC ∧
    (coll.foldl (toggleSel b) st).dragHD = st.dragHD ∧
    (coll.foldl (toggleSel b) st).clickHD = st.clickHD ∧
    (coll.foldl (toggleSel b) st).keypressHD = st.keypressHD ∧
    (coll.foldl (toggleSel b) st).tabT = st.tabT ∧
    (coll.foldl (toggleSel b) st).dropeff = st.dropeff ∧
    (coll.foldl (toggleSel b) st).availC = st.availC ∧
    (coll.foldl (toggleSel b) st).hoverC = st.hoverC ∧
    (coll.foldl (toggleSel b) st).dragHT = st.dragHT ∧
    (coll.foldl (toggleSel b) st).clickHT = st.clickHT ∧
    (coll.foldl (toggleSel b) st).keypressHT = st.keypressHT ∧
    (coll.foldl (toggleSel b) st).ctxKeydown = st.ctxKeydown ∧
    (coll.foldl (toggleSel b) st).dragElement = st.dragElement ∧
    (coll.foldl (toggleSel b) st).calls = st.calls ∧
    (coll.foldl (toggleSel b) st).prevented = st.prevented ∧
    (coll.foldl (toggleSel b) st).focusLog = st.focusLog := by
  induction coll generalizing st with
  | nil => exact ⟨rfl, rfl, rfl, rfl, rfl, rfl, rfl, rfl, rfl, rfl, rfl, rfl, rfl,
      rfl, rfl, rfl, rfl, rfl, rfl, rfl, rfl⟩
  | cons a tl ih =>
    rw [List.foldl_cons]
    rcases a with ⟨sd, i⟩
    cases sd <;> exact ih (toggleSel b st _)

/-- keyboardSelect only changes the selected markers and the call log. -/
theorem keyboardSelect_frame (s : Dnd) (coll : List (Side × Nat)) :
    (keyboardSelect s coll).nD = s.nD ∧
    (keyboardSelect s coll).nT = s.nT ∧
    (keyboardSelect s coll).draggableAttr = s.draggableAttr ∧
    (keyboardSelect s coll).tabD = s.tabD ∧
    (keyboardSelect s coll).grabbed = s.grabbed ∧
    (keyboardSelect s coll).movingC = s.movingC ∧
    (keyboardSelect s coll).dragHD = s.dragHD ∧
    (keyboardSelect s coll).clickHD = s.clickHD ∧
    (keyboardSelect s coll).keypressHD = s.keypressHD ∧
    (keyboardSelect s coll).tabT = s.tabT ∧
    (keyboardSelect s coll).dropeff = s.dropeff ∧
    (keyboardSelect s coll).availC = s.availC ∧
    (keyboardSelect s coll).hoverC = s.hoverC ∧
    (keyboardSelect s coll).dragHT = s.dragHT ∧
    (keyboardSelect s coll).clickHT = s.clickHT ∧
    (keyboardSelect s coll).keypressHT = s.keypressHT ∧
    (keyboardSelect s coll).ctxKeydown = s.ctxKeydown ∧
    (keyboardSelect s coll).dragElement = s.dragElement ∧
    (keyboardSelect s coll).prevented = s.prevented ∧
    (keyboardSelect s coll).focusLog = s.focusLog := by
  have hfold := foldl_toggleSel_frame (! coll.any (isSel s)) coll
  have hbody : kbToggle s coll =
      coll.foldl (toggleSel (! coll.any (isSel s)))
        (if (match coll.head? with
             | some (Side.dr, i) => s.draggableAttr i
             | _ => false) = true
         then { s with selDC := updAll s.nD false s.selDC }
         else { s with selTC := updAll s.nT false s.selTC }) := by
    simp [kbToggle]
  constructor
  · rw [keyboardSelect, dispatchIfPaired_nD, hbody]
    split <;> simp [(hfold _).1]
  constructor
  · rw [keyboardSelect, dispatchIfPaired_nT, hbody]
    split <;> simp [(hfold _).2.1]
  constructor
  · rw [keyboardSelect, dispatchIfPaired_draggableAttr, hbody]
    split <;> simp [(hfold _).2.2.1]
  constructor
  · rw [keyboardSelect, show ∀ u : Dnd, (dispatchIfPaired u).tabD = u.tabD from by
      intro u; simp only [dispatchIfPaired]; split <;> rfl, hbody]
    split <;> simp [(hfold _).2.2.2.1]
  constructor
  · rw [keyboardSelect, show ∀ u : Dnd, (dispatchIfPaired u).grabbed = u.grabbed from by
      intro u; simp only [dispatchIfPaired]; split <;> rfl, hbody]
    split <;> simp [(hfold _).2.2.2.2.1]
  constructor
  · rw [keyboardSelect, dispatchIfPaired_movingC, hbody]
    split <;> simp [(hfold _).2.2.2.2.2.1]
  constructor
  · rw [keyboardSelect, dispatchIfPaired_dragHD, hbody]
    split <;> simp [(hfold _).2.2.2.2.2.2.1]
  constructor
  · rw [keyboardSelect, dispatchIfPaired_clickHD, hbody]
    split <;> simp [(hfold _).2.2.2.2.2.2.2.1]
  constructor
  · rw [keyboardSelect, dispatchIfPaired_keypressHD, hbody]
    split <;> simp [(hfold _).2.2.2.2.2.2.2.2.1]
  constructor
  · rw [keyboardSelect, show ∀ u : Dnd, (dispatchIfPaired u).tabT = u.tabT from by
      intro u; simp only [dispatchIfPaired]; split <;> rfl, hbody]
    split <;> simp [(hfold _).2.2.2.2.2.2.2.2.2.1]
  constructor
  · rw [keyboardSelect, show ∀ u : Dnd, (dispatchIfPaired u).dropeff = u.dropeff from by
      intro u; simp only [dispatchIfPaired]; split <;> rfl, hbody]
    split <;> simp [(hfold _).2.2.2.2.2.2.2.2.2.2.1]
  constructor
  · rw [keyboardSelect, dispatchIfPaired_availC, hbody]
    split <;> simp [(hfold _).2.2.2.2.2.2.2.2.2.2.2.1]
  constructor
  · rw [keyboardSelect, dispatchIfPaired_hoverC, hbody]
    split <;> simp [(hfold _).2.2.2.2.2.2.2.2.2.2.2.2.1]
  constructor
  · rw [keyboardSelect, dispatchIfPaired_dragHT, hbody]
    split <;> simp [(hfold _).2.2.2.2.2.2.2.2.2.2.2.2.2.1]
  constructor
  · rw [keyboardSelect, dispatchIfPaired_clickHT, hbody]
    split <;> simp [(hfold _).2.2.2.2.2.2.2.2.2.2.2.2.2.2.1]
  constructor
  · rw [keyboardSelect, dispatchIfPaired_keypressHT, hbody]
    split <;> simp [(hfold _).2.2.2.2.2.2.2.2.2.2.2.2.2.2.2.1]
  constructor
  · rw [keyboardSelect, dispatchIfPaired_ctxKeydown, hbody]
    split <;> simp [(hfold _).2.2.2.2.2.2.2.2.2.2.2.2.2.2.2.2.1]
  constructor
  · rw [keyboardSelect, dispatchIfPaired_dragElement, hbody]
    split <;> simp [(hfold _).2.2.2.2.2.2.2.2.2.2.2.2.2.2.2.2.2.1]
  constructor
  · rw [keyboardSelect, show ∀ u : Dnd, (dispatchIfPaired u).prevented = u.prevented from by
      intro u; simp only [dispatchIfPaired]; split <;> rfl, hbody]
    split <;> simp [(hfold _).2.2.2.2.2.2.2.2.2.2.2.2.2.2.2.2.2.2.2.1]
  · rw [keyboardSelect, dispatchIfPaired_focusLog, hbody]
    split <;> simp [(hfold _).2.2.2.2.2.2.2.2.2.2.2.2.2.2.2.2.2.2.2.2]

theorem keyboardSelect_nD (s : Dnd) (coll : List (Side × Nat)) :
    (keyboardSelect s coll).nD = s.nD := (keyboardSelect_frame s coll).1

theorem keyboardSelect_nT (s : Dnd) (coll : List (Side × Nat)) :
    (keyboardSelect s coll).nT = s.nT := (keyboardSelect_frame s coll).2.1

theorem keyboardSelect_draggableAttr (s : Dnd) (coll : List (Side × Nat)) :
    (keyboardSelect s coll).draggableAttr = s.draggableAttr :=
  (keyboardSelect_frame s coll).2.2.1

theorem keyboardSelect_movingC (s : Dnd) (coll : List (Side × Nat)) :
    (keyboardSelect s coll).movingC = s.movingC :=
  (keyboardSelect_frame s coll).2.2.2.2.2.1

theorem keyboardSelect_dragHD (s : Dnd) (coll : List (Side × Nat)) :
    (keyboardSelect s coll).dragHD = s.dragHD :=
  (keyboardSelect_frame s coll).2.2.2.2.2.2.1

theorem keyboardSelect_clickHD (s : Dnd) (coll : List (Side × Nat)) :
    (keyboardSelect s coll).clickHD = s.clickHD :=
  (keyboardSelect_frame s coll).2.2.2.2.2.2.2.1

theorem keyboardSelect_keypressHD (s : Dnd) (coll : List (Side × Nat)) :
    (keyboardSelect s coll).keypressHD = s.keypressHD :=
  (keyboardSelect_frame s coll).2.2.2.2.2.2.2.2.1

theorem keyboardSelect_availC (s : Dnd) (coll : List (Side × Nat)) :
    (keyboardSelect s coll).availC = s.availC :=
  (keyboardSelect_frame s coll).2.2.2.2.2.2.2.2.2.2.2.1

theorem keyboardSelect_hoverC (s : Dnd) (coll : List (Side × Nat)) :
    (keyboardSelect s coll).hoverC = s.hoverC :=
  (keyboardSelect_frame s coll).2.2.2.2.2.2.2.2.2.2.2.2.1

theorem keyboardSelect_dragHT (s : Dnd) (coll : List (Side × Nat)) :
    (keyboardSelect s coll).dragHT = s.dragHT :=
  (keyboardSelect_frame s coll).2.2.2.2.2.2.2.2.2.2.2.2.2.1

theorem keyboardSelect_clickHT (s : Dnd) (coll : List (Side × Nat)) :
    (keyboardSelect s coll).clickHT = s.clickHT :=
  (keyboardSelect_frame s coll).2.2.2.2.2.2.2.2.2.2.2.2.2.2.1

theorem keyboardSelect_keypressHT (s : Dnd) (coll : List (Side × Nat)) :
    (keyboardSelect s coll).keypressHT = s.keypressHT :=
  (keyboardSelect_frame s coll).2.2.2.2.2.2.2.2.2.2.2.2.2.2.2.1

theorem keyboardSelect_ctxKeydown (s : Dnd) (coll : List (Side × Nat)) :
    (keyboardSelect s coll).ctxKeydown = s.ctxKeydown :=
  (keyboardSelect_frame s coll).2.2.2.2.2.2.2.2.2.2.2.2.2.2.2.2.1

theorem keyboardSelect_dragElement (s : Dnd) (coll : List (Side × Nat)) :
    (keyboardSelect s coll).dragElement = s.dragElement :=
  (keyboardSelect_frame s coll).2.2.2.2.2.2.2.2.2.2.2.2.2.2.2.2.2.1

theorem selectedDraggables_pdef (s : Dnd) :
    selectedDraggables (pdef s) = selectedDraggables s := by
  simp [pdef, selectedDraggables]

theorem selectedTargets_pdef (s : Dnd) :
    selectedTargets (pdef s) = selectedTargets s := by
  simp [pdef, selectedTargets]

theorem mem_selectedDraggables (s : Dnd) (d : Nat) (h : d ∈ selectedDraggables s) :
    d < s.nD ∧ s.selDC d = true := by
  unfold selectedDraggables at h
  have hm := List.mem_filter.mp h
  exact ⟨List.mem_range.mp hm.1, hm.2⟩

theorem mem_selectedTargets (s : Dnd) (t : Nat) (h : t ∈ selectedTargets s) :
    t < s.nT ∧ s.selTC t = true := by
  unfold selectedTargets at h
  have hm := List.mem_filter.mp h
  exact ⟨List.mem_range.mp hm.1, hm.2⟩

/-- Input events never change the collection sizes, the draggable attribute,
or any handler flag: only the lifecycle operations do. -/
theorem step_frameA (s : Dnd) (e : DEvent) :
    (step s e).nD = s.nD ∧
    (step s e).nT = s.nT ∧
    (step s e).draggableAttr = s.draggableAttr ∧
    (step s e).dragHD = s.dragHD ∧
    (step s e).clickHD = s.clickHD ∧
    (step s e).keypressHD = s.keypressHD ∧
    (step s e).dragHT = s.dragHT ∧
    (step s e).clickHT = s.clickHT ∧
    (step s e).keypressHT = s.keypressHT ∧
    (step s e).ctxKeydown = s.ctxKeydown := by
  cases e with
  | dragstart d => by_cases h : s.dragHD d = true <;> simp [step, h, handleDragStart]
  | dragend d =>
      cases hde : s.dragElement <;> by_cases h : s.dragHD d = true <;>
        simp [step, h, handleDragEnd, hde]
  | dragenter t => by_cases h : s.dragHT t = true <;> simp [step, h, handleDragEnter]
  | dragleave t => by_cases h : s.dragHT t = true <;> simp [step, h, handleDragLeave]
  | dragover t => by_cases h : s.dragHT t = true <;> simp [step, h, handleDragOver]
  | drop t => by_cases h : s.dragHT t = true <;> simp [step, h, handleDrop]
  | clickDr d =>
      by_cases h : s.clickHD d = true <;>
        simp [step, h, pdef, keyboardSelect_nD, keyboardSelect_nT,
          keyboardSelect_draggableAttr, keyboardSelect_dragHD, keyboardSelect_clickHD,
          keyboardSelect_keypressHD, keyboardSelect_dragHT, keyboardSelect_clickHT,
          keyboardSelect_keypressHT, keyboardSelect_ctxKeydown]
  | clickTg t =>
      by_cases h : s.clickHT t = true <;>
        simp [step, h, pdef, keyboardSelect_nD, keyboardSelect_nT,
          keyboardSelect_draggableAttr, keyboardSelect_dragHD, keyboardSelect_clickHD,
          keyboardSelect_keypressHD, keyboardSelect_dragHT, keyboardSelect_clickHT,
          keyboardSelect_keypressHT, keyboardSelect_ctxKeydown]
  | keypressDr d c =>
      by_cases h : s.keypressHD d = true <;> by_cases hk : activateKey c = true <;>
        simp [step, h, hk, pdef, keyboardSelect_nD, keyboardSelect_nT,
          keyboardSelect_draggableAttr, keyboardSelect_dragHD, keyboardSelect_clickHD,
          keyboardSelect_keypressHD, keyboardSelect_dragHT, keyboardSelect_clickHT,
          keyboardSelect_keypressHT, keyboardSelect_ctxKeydown]
  | keypressTg t c =>
      by_cases h : s.keypressHT t = true <;> by_cases hk : activateKey c = true <;>
        simp [step, h, hk, pdef, keyboardSelect_nD, keyboardSelect_nT,
          keyboardSelect_draggableAttr, keyboardSelect_dragHD, keyboardSelect_clickHD,
          keyboardSelect_keypressHD, keyboardSelect_dragHT, keyboardSelect_clickHT,
          keyboardSelect_keypressHT, keyboardSelect_ctxKeydown]
  | keydownCtx c =>
      by_cases h : s.ctxKeydown = true <;> by_cases hc : c = ESCAPE_KEY <;>
        by_cases hse : (selectedDraggables s).isEmpty = true <;>
          simp [step, h, hc, hse, pdef, keyboardSelect_nD, keyboardSelect_nT,
            keyboardSelect_draggableAttr, keyboardSelect_dragHD, keyboardSelect_clickHD,
            keyboardSelect_keypressHD, keyboardSelect_dragHT, keyboardSelect_clickHT,
            keyboardSelect_keypressHT, keyboardSelect_ctxKeydown]

/-- Inductive invariant for sequences of input events on an initialised
controller: every collection draggable still carries its draggable
attribute, discrete handlers only sit on collection members, and at most one
element per set carries the selected marker. -/
def DndInv (s : Dnd) : Prop :=
  (∀ d, d < s.nD → s.draggableAttr d = true) ∧
  (∀ d, s.clickHD d = true → d < s.nD) ∧
  (∀ d, s.keypressHD d = true → d < s.nD) ∧
  (selectedDraggables s).length ≤ 1 ∧
  (selectedTargets s).length ≤ 1

theorem inv_mkDnD (nD nT : Nat) : DndInv (mkDnD nD nT) := by
  refine ⟨?_, ?_, ?_, ?_, ?_⟩
  · intro d hd
    simp only [mkDnD, blank, Dnd.init] at hd ⊢
    simp [updAll, hd]
  · intro d h
    simp only [mkDnD, blank, Dnd.init, updAll] at h ⊢
    by_cases hd : d < nD
    · exact hd
    · simp [hd] at h
  · intro d h
    simp only [mkDnD, blank, Dnd.init, updAll] at h ⊢
    by_cases hd : d < nD
    · exact hd
    · simp [hd] at h
  · simp [mkDnD, blank, Dnd.init, selectedDraggables]
  · simp [mkDnD, blank, Dnd.init, selectedTargets]

/-- One input event leaves each selection list unchanged, empty, or a
singleton, provided the invariant facts about attributes and handlers. -/
theorem step_selected (s : Dnd) (e : DEvent)
    (h1 : ∀ d, d < s.nD → s.draggableAttr d = true)
    (h2 : ∀ d, s.clickHD d = true → d < s.nD)
    (h3 : ∀ d, s.keypressHD d = true → d < s.nD)
    (h4 : (selectedDraggables s).length ≤ 1) :
    (selectedDraggables (step s e) = selectedDraggables s ∨
      selectedDraggables (step s e) = [] ∨
      ∃ d, selectedDraggables (step s e) = [d]) ∧
    (selectedTargets (step s e) = selectedTargets s ∨
      selectedTargets (step s e) = [] ∨
      ∃ t, selectedTargets (step s e) = [t]) := by
  cases e with
  | dragstart d =>
      by_cases h : s.dragHD d = true <;>
        exact ⟨Or.inl (by simp [step, h, handleDragStart, selectedDraggables]),
               Or.inl (by simp [step, h, handleDragStart, selectedTargets])⟩
  | dragend d =>
      cases hde : s.dragElement <;> by_cases h : s.dragHD d = true <;>
        exact ⟨Or.inl (by simp [step, h, handleDragEnd, hde, selectedDraggables]),
               Or.inl (by simp [step, h, handleDragEnd, hde, selectedTargets])⟩
  | dragenter t =>
      by_cases h : s.dragHT t = true <;>
        exact ⟨Or.inl (by simp [step, h, handleDragEnter, selectedDraggables]),
               Or.inl (by simp [step, h, handleDragEnter, selectedTargets])⟩
  | dragleave t =>
      by_cases h : s.dragHT t = true <;>
        exact ⟨Or.inl (by simp [step, h, handleDragLeave, selectedDraggables]),
               Or.inl (by simp [step, h, handleDragLeave, selectedTargets])⟩
  | dragover t =>
      by_cases h : s.dragHT t = true <;>
        exact ⟨Or.inl (by simp [step, h, handleDragOver, selectedDraggables]),
               Or.inl (by simp [step, h, handleDragOver, selectedTargets])⟩
  | drop t =>
      by_cases h : s.dragHT t = true <;>
        exact ⟨Or.inl (by simp [step, h, handleDrop, selectedDraggables]),
               Or.inl (by simp [step, h, handleDrop, selectedTargets])⟩
  | clickDr d =>
      by_cases h : s.clickHD d = true
      · have hattr := h1 d (h2 d h)
        have hstep : step s (DEvent.clickDr d) = pdef (keyboardSelect s [(Side.dr, d)]) := by
          simp [step, h]
        constructor
        · right
          rw [hstep, selectedDraggables_pdef, keyboardSelect_dr_selectedD s d hattr]
          by_cases hc : d < s.nD ∧ s.selDC d = false
          · exact Or.inr ⟨d, by simp [hc]⟩
          · exact Or.inl (by simp [hc])
        · exact Or.inl (by rw [hstep, selectedTargets_pdef, keyboardSelect_dr_selectedT s d hattr])
      · exact ⟨Or.inl (by simp [step, h]), Or.inl (by simp [step, h])⟩
  | clickTg t =>
      by_cases h : s.clickHT t = true
      · have hstep : step s (DEvent.clickTg t) = pdef (keyboardSelect s [(Side.tg, t)]) := by
          simp [step, h]
        constructor
        · exact Or.inl (by rw [hstep, selectedDraggables_pdef, keyboardSelect_tg_selectedD])
        · right
          rw [hstep, selectedTargets_pdef, keyboardSelect_tg_selectedT]
          by_cases hc : t < s.nT ∧ s.selTC t = false
          · exact Or.inr ⟨t, by simp [hc]⟩
          · exact Or.inl (by simp [hc])
      · exact ⟨Or.inl (by simp [step, h]), Or.inl (by simp [step, h])⟩
  | keypressDr d c =>
      by_cases h : s.keypressHD d = true
      · by_cases hk : activateKey c = true
        · have hattr := h1 d (h3 d h)
          have hstep : step s (DEvent.keypressDr d c) =
              pdef (keyboardSelect s [(Side.dr, d)]) := by
            simp [step, h, hk]
          constructor
          · right
            rw [hstep, selectedDraggables_pdef, keyboardSelect_dr_selectedD s d hattr]
            by_cases hc : d < s.nD ∧ s.selDC d = false
            · exact Or.inr ⟨d, by simp [hc]⟩
            · exact Or.inl (by simp [hc])
          · exact Or.inl
              (by rw [hstep, selectedTargets_pdef, keyboardSelect_dr_selectedT s d hattr])
        · exact ⟨Or.inl (by simp [step, h, hk]), Or.inl (by simp [step, h, hk])⟩
      · exact ⟨Or.inl (by simp [step, h]), Or.inl (by simp [step, h])⟩
  | keypressTg t c =>
      by_cases h : s.keypressHT t = true
      · by_cases hk : activateKey c = true
        · have hstep : step s (DEvent.keypressTg t c) =
              pdef (keyboardSelect s [(Side.tg, t)]) := by
            simp [step, h, hk]
          constructor
          · exact Or.inl (by rw [hstep, selectedDraggables_pdef, keyboardSelect_tg_selectedD])
          · right
            rw [hstep, selectedTargets_pdef, keyboardSelect_tg_selectedT]
            by_cases hc : t < s.nT ∧ s.selTC t = false
            · exact Or.inr ⟨t, by simp [hc]⟩
            · exact Or.inl (by simp [hc])
        · exact ⟨Or.inl (by simp [step, h, hk]), Or.inl (by simp [step, h, hk])⟩
      · exact ⟨Or.inl (by simp [step, h]), Or.inl (by simp [step, h])⟩
  | keydownCtx c =>
      by_cases h : s.ctxKeydown = true
      · by_cases hc : c = ESCAPE_KEY
        · cases hl : selectedDraggables s with
          | nil =>
              have hstep : step s (DEvent.keydownCtx c) = pdef (keyboardSelect s []) := by
                simp [step, h, hc, hl]
              constructor
              · exact Or.inr (Or.inl
                  (by rw [hstep, selectedDraggables_pdef, keyboardSelect_nil_selectedD, hl]))
              · exact Or.inr (Or.inl
                  (by rw [hstep, selectedTargets_pdef, keyboardSelect_nil_selectedT]))
          | cons d0 tl =>
              have htl : tl = [] := by
                rw [hl] at h4
                simp only [List.length_cons] at h4
                exact List.eq_nil_of_length_eq_zero (by omega)
              subst htl
              have hd0 : d0 ∈ selectedDraggables s := by
                rw [hl]; exact List.mem_cons_self d0 []
              obtain ⟨hd0lt, hd0sel⟩ := mem_selectedDraggables s d0 hd0
              have hattr := h1 d0 hd0lt
              have hstep : step s (DEvent.keydownCtx c) =
                  pdef { keyboardSelect s [(Side.dr, d0)] with focusLog := [d0] } := by
                simp [step, h, hc, hl]
              constructor
              · refine Or.inr (Or.inl ?_)
                rw [hstep]
                have hred : selectedDraggables
                    (pdef { keyboardSelect s [(Side.dr, d0)] with focusLog := [d0] }) =
                    selectedDraggables (keyboardSelect s [(Side.dr, d0)]) := by
                  simp [pdef, selectedDraggables]
                rw [hred, keyboardSelect_dr_selectedD s d0 hattr]
                simp [hd0sel]
              · refine Or.inl ?_
                rw [hstep]
                have hred : selectedTargets
                    (pdef { keyboardSelect s [(Side.dr, d0)] with focusLog := [d0] }) =
                    selectedTargets (keyboardSelect s [(Side.dr, d0)]) := by
                  simp [pdef, selectedTargets]
                rw [hred, keyboardSelect_dr_selectedT s d0 hattr]
        · exact ⟨Or.inl (by simp [step, h, hc]), Or.inl (by simp [step, h, hc])⟩
      · exact ⟨Or.inl (by simp [step, h]), Or.inl (by simp [step, h])⟩

theorem inv_step (s : Dnd) (e : DEvent) (h : DndInv s) : DndInv (step s e) := by
  obtain ⟨h1, h2, h3, h4, h5⟩ := h
  obtain ⟨fnD, _, fattr, _, fchd, fkhd, _, _, _, _⟩ := step_frameA s e
  have hsel := step_selected s e h1 h2 h3 h4
  refine ⟨?_, ?_, ?_, ?_, ?_⟩
  · intro d hd
    rw [fattr]
    exact h1 d (by rwa [fnD] at hd)
  · intro d hcl
    rw [fnD]
    exact h2 d (by rwa [fchd] at hcl)
  · intro d hk
    rw [fnD]
    exact h3 d (by rwa [fkhd] at hk)
  · rcases hsel.1 with he | he | ⟨d, he⟩
    · rw [he]; exact h4
    · rw [he]; simp
    · rw [he]; simp
  · rcases hsel.2 with he | he | ⟨t, he⟩
    · rw [he]; exact h5
    · rw [he]; simp
    · rw [he]; simp

theorem inv_run (s : Dnd) (evs : List DEvent) (h : DndInv s) : DndInv (run s evs) := by
  induction evs generalizing s with
  | nil => exact h
  | cons e tl ih =>
      simp only [run, List.foldl_cons]
      exact ih (step s e) (inv_step s e h)

theorem keyboardSelect_focusLog (s : Dnd) (coll : List (Side × Nat)) :
    (keyboardSelect s coll).focusLog = s.focusLog :=
  (keyboardSelect_frame s coll).2.2.2.2.2.2.2.2.2.2.2.2.2.2.2.2.2.2.2

theorem kbToggle_calls (s : Dnd) (coll : List (Side × Nat)) :
    (kbToggle s coll).calls = s.calls := by
  simp only [kbToggle]
  split
  · obtain ⟨-, -, -, -, -, -, -, -, -, -, -, -, -, -, -, -, -, -, hc, -, -⟩ :=
      foldl_toggleSel_frame (!coll.any (isSel s)) coll
        { s with selDC := updAll s.nD false s.selDC }
    exact hc
  · obtain ⟨-, -, -, -, -, -, -, -, -, -, -, -, -, -, -, -, -, -, hc, -, -⟩ :=
      foldl_toggleSel_frame (!coll.any (isSel s)) coll
        { s with selTC := updAll s.nT false s.selTC }
    exact hc

/-- When the toggle leaves one of the two selections empty, _keyboardSelect
does not invoke the callback. -/
theorem keyboardSelect_calls_unpaired (s : Dnd) (coll : List (Side × Nat))
    (h : selectedDraggables (keyboardSelect s coll) = [] ∨
      selectedTargets (keyboardSelect s coll) = []) :
    (keyboardSelect s coll).calls = s.calls := by
  simp only [keyboardSelect] at h ⊢
  rw [selectedDraggables_dispatchIfPaired, selectedTargets_dispatchIfPaired] at h
  rw [dispatchIfPaired_calls]
  rcases h with h | h <;> simp [h, kbToggle_calls]

/-- When the toggle leaves both selections nonempty, _keyboardSelect invokes
the callback exactly once, with the two selection lists. -/
theorem keyboardSelect_calls_paired (s : Dnd) (coll : List (Side × Nat))
    (hd : selectedDraggables (keyboardSelect s coll) ≠ [])
    (ht : selectedTargets (keyboardSelect s coll) ≠ []) :
    (keyboardSelect s coll).calls =
      s.calls ++ [⟨some (selectedDraggables (keyboardSelect s coll)),
        selectedTargets (keyboardSelect s coll)⟩] := by
  simp only [keyboardSelect] at hd ht ⊢
  rw [selectedDraggables_dispatchIfPaired] at hd ⊢
  rw [selectedTargets_dispatchIfPaired] at ht ⊢
  rw [dispatchIfPaired_calls]
  have hcond : (!(selectedDraggables (kbToggle s coll)).isEmpty &&
      !(selectedTargets (kbToggle s coll)).isEmpty) = true := by
    simp [List.isEmpty_iff, hd, ht]
  simp [hcond, kbToggle_calls]

theorem run_nT (s : Dnd) (evs : List DEvent) : (run s evs).nT = s.nT := by
  induction evs generalizing s with
  | nil => rfl
  | cons e tl ih =>
      simp only [run, List.foldl_cons]
      exact (ih (step s e)).trans (step_frameA s e).2.1

theorem run_nD (s : Dnd) (evs : List DEvent) : (run s evs).nD = s.nD := by
  induction evs generalizing s with
  | nil => rfl
  | cons e tl ih =>
      simp only [run, List.foldl_cons]
      exact (ih (step s e)).trans (step_frameA s e).1

/-- The events that may occur inside a gesture between dragstart and
dragend: dragenter, dragleave, dragover, drop. -/
def interEvent : DEvent → Bool
  | DEvent.dragenter _ => true
  | DEvent.dragleave _ => true
  | DEvent.dragover _ => true
  | DEvent.drop _ => true
  | _ => false

theorem inter_preserve (s : Dnd) (e : DEvent) (he : interEvent e = true) :
    (step s e).movingC = s.movingC ∧ (step s e).availC = s.availC ∧
    (step s e).dragElement = s.dragElement := by
  cases e with
  | dragenter t => by_cases h : s.dragHT t = true <;> simp [step, h, handleDragEnter]
  | dragleave t => by_cases h : s.dragHT t = true <;> simp [step, h, handleDragLeave]
  | dragover t => by_cases h : s.dragHT t = true <;> simp [step, h, handleDragOver]
  | drop t => by_cases h : s.dragHT t = true <;> simp [step, h, handleDrop]
  | dragstart d => simp [interEvent] at he
  | dragend d => simp [interEvent] at he
  | clickDr d => simp [interEvent] at he
  | clickTg t => simp [interEvent] at he
  | keypressDr d c => simp [interEvent] at he
  | keypressTg t c => simp [interEvent] at he
  | keydownCtx c => simp [interEvent] at he

theorem inter_run_preserve (s : Dnd) (evs : List DEvent)
    (he : ∀ e ∈ evs, interEvent e = true) :
    (run s evs).movingC = s.movingC ∧ (run s evs).availC = s.availC ∧
    (run s evs).dragElement = s.dragElement := by
  induction evs generalizing s with
  | nil => exact ⟨rfl, rfl, rfl⟩
  | cons e tl ih =>
      have h1 := inter_preserve s e (he e (List.mem_cons_self e tl))
      have h2 := ih (step s e) (fun e2 hm => he e2 (List.mem_cons_of_mem e hm))
      simp only [run, List.foldl_cons] at h2 ⊢
      exact ⟨h2.1.trans h1.1, h2.2.1.trans h1.2.1, h2.2.2.trans h1.2.2⟩

theorem run_dragHD (s : Dnd) (evs : List DEvent) : (run s evs).dragHD = s.dragHD := by
  induction evs generalizing s with
  | nil => rfl
  | cons e tl ih =>
      simp only [run, List.foldl_cons]
      exact (ih (step s e)).trans (step_frameA s e).2.2.2.1

theorem run_dragHT (s : Dnd) (evs : List DEvent) : (run s evs).dragHT = s.dragHT := by
  induction evs generalizing s with
  | nil => rfl
  | cons e tl ih =>
      simp only [run, List.foldl_cons]
      exact (ih (step s e)).trans (step_frameA s e).2.2.2.2.2.2.1

theorem dragover_run_preserve (s : Dnd) (evs : List DEvent)
    (he : ∀ e ∈ evs, ∃ t0, e = DEvent.dragover t0) :
    (run s evs).calls = s.calls ∧ (run s evs).dragElement = s.dragElement := by
  induction evs generalizing s with
  | nil => exact ⟨rfl, rfl⟩
  | cons e tl ih =>
      obtain ⟨t0, rfl⟩ := he _ (List.mem_cons_self _ tl)
      have h1 : (step s (DEvent.dragover t0)).calls = s.calls ∧
          (step s (DEvent.dragover t0)).dragElement = s.dragElement := by
        by_cases h : s.dragHT t0 = true <;> simp [step, h, handleDragOver]
      have h2 := ih (step s (DEvent.dragover t0))
        (fun e2 hm => he e2 (List.mem_cons_of_mem _ hm))
      simp only [run, List.foldl_cons] at h2 ⊢
      exact ⟨h2.1.trans h1.1, h2.2.trans h1.2⟩

/-! ### Claim theorems -/

/-- Claim C1 (code-bug evaluation).  cleanup claims to detach all handlers,
but _removeKeyboardEventHandlers only detaches the click registration, so
the keypress registration survives.  Failing input: initialise a 1x1 group,
click draggable 0 (selecting it), call cleanup, then deliver a confirm-key
(Enter) keypress on target 0.  The keypress handler is still attached, the
selected markers mutate, and the match callback fires once — contradicting
zero invocations and zero marker mutations after cleanup. -/
theorem c1_cleanup_keypress_still_fires :
    ((run (mkDnD 1 1) [DEvent.clickDr 0]).cleanup.keypressHT 0 = true) ∧
    ((run (mkDnD 1 1) [DEvent.clickDr 0]).cleanup.ctxKeydown = true) ∧
    (step (run (mkDnD 1 1) [DEvent.clickDr 0]).cleanup
        (DEvent.keypressTg 0 13)).selTC 0 = true ∧
    (step (run (mkDnD 1 1) [DEvent.clickDr 0]).cleanup
        (DEvent.keypressTg 0 13)).calls = [⟨some [0], [0]⟩] := by
  decide

/-- Claim C2 (code-bug evaluation).  disableMatching is meant to detach
both modalities from the pair, but it only detaches click: the keypress
registration stays on the disabled pair.  Failing input: 3x3 group, disable
the pair of draggable 1 and target 1, then deliver confirm-key (Enter) on
the disabled draggable 1 followed by a click on target 0.  The keypress
handler still runs (and, the draggable attribute having been removed, it
toggles the marker through the target branch) and the callback then fires
with the disabled draggable. -/
theorem c2_disable_keypress_still_fires :
    (((mkDnD 3 3).disableMatching (some 1) (some 1)).keypressHD 1 = true) ∧
    ((step ((mkDnD 3 3).disableMatching (some 1) (some 1))
        (DEvent.keypressDr 1 13)).selDC 1 = true) ∧
    (run ((mkDnD 3 3).disableMatching (some 1) (some 1))
        [DEvent.keypressDr 1 13, DEvent.clickTg 0]).calls = [⟨some [1], [0]⟩] := by
  decide

/-- Claim C5 (counterexample).  The claim says the active drag reference is
non-null only between dragstart and dragend of the same gesture, but
_handleDragEnd never clears dragElement: after a complete gesture
dragstart 0, dragend 0 on a fresh 1x1 instance the reference still holds
draggable 0. -/
theorem c5_drag_reference_counterexample :
    (run (mkDnD 1 1) [DEvent.dragstart 0, DEvent.dragend 0]).dragElement = some 0 ∧
    (run (mkDnD 1 1) [DEvent.dragstart 0, DEvent.dragend 0]).dragElement ≠ none := by
  decide

/-- Claim C5 (amended).  The active drag reference starts undefined, is set
to D when a drag gesture starts on a draggable D whose handler is attached,
and is never cleared: every non-dragstart event (dragend included) leaves
it unchanged, so after the first gesture it permanently holds the most
recently dragged draggable. -/
theorem c5_drag_reference_amended :
    (∀ nD nT : Nat, (mkDnD nD nT).dragElement = none) ∧
    (∀ (s : Dnd) (d : Nat), s.dragHD d = true →
      (step s (DEvent.dragstart d)).dragElement = some d) ∧
    (∀ (s : Dnd) (e : DEvent), (∀ d, e ≠ DEvent.dragstart d) →
      (step s e).dragElement = s.dragElement) := by
  refine ⟨fun nD nT => rfl, ?_, ?_⟩
  · intro s d h
    simp [step, h, handleDragStart]
  · intro s e he
    cases e with
    | dragstart d => exact absurd rfl (he d)
    | dragend d =>
        cases hde : s.dragElement <;> by_cases h : s.dragHD d = true <;>
          simp [step, h, handleDragEnd, hde]
    | dragenter t => by_cases h : s.dragHT t = true <;> simp [step, h, handleDragEnter]
    | dragleave t => by_cases h : s.dragHT t = true <;> simp [step, h, handleDragLeave]
    | dragover t => by_cases h : s.dragHT t = true <;> simp [step, h, handleDragOver]
    | drop t => by_cases h : s.dragHT t = true <;> simp [step, h, handleDrop]
    | clickDr d =>
        by_cases h : s.clickHD d = true <;>
          simp [step, h, pdef, keyboardSelect_dragElement]
    | clickTg t =>
        by_cases h : s.clickHT t = true <;>
          simp [step, h, pdef, keyboardSelect_dragElement]
    | keypressDr d c =>
        by_cases h : s.keypressHD d = true <;> by_cases hk : activateKey c = true <;>
          simp [step, h, hk, pdef, keyboardSelect_dragElement]
    | keypressTg t c =>
        by_cases h : s.keypressHT t = true <;> by_cases hk : activateKey c = true <;>
          simp [step, h, hk, pdef, keyboardSelect_dragElement]
    | keydownCtx c =>
        by_cases h : s.ctxKeydown = true <;> by_cases hc : c = ESCAPE_KEY <;>
          by_cases hse : (selectedDraggables s).isEmpty = true <;>
            simp [step, h, hc, hse, pdef, keyboardSelect_dragElement]

/-- Witness for the amended C5 at concrete inputs. -/
theorem c5_drag_reference_amended_witness :
    (mkDnD 1 1).dragElement = none ∧
    (step (mkDnD 1 1) (DEvent.dragstart 0)).dragElement = some 0 ∧
    (step (run (mkDnD 1 1) [DEvent.dragstart 0]) (DEvent.dragend 0)).dragElement =
      (run (mkDnD 1 1) [DEvent.dragstart 0]).dragElement :=
  ⟨c5_drag_reference_amended.1 1 1,
   c5_drag_reference_amended.2.1 (mkDnD 1 1) 0 (by decide),
   c5_drag_reference_amended.2.2 (run (mkDnD 1 1) [DEvent.dragstart 0]) (DEvent.dragend 0)
     (fun d h => DEvent.noConfusion h)⟩

/-- Claim C10.  _handleDrop performs no guard on the stored dragElement: a
drop delivered on a target with its handler attached while no dragstart has
ever fired invokes the callback with the undefined draggable reference
paired with that target. -/
theorem c10_drop_without_dragstart (s : Dnd) (t : Nat)
    (hde : s.dragElement = none) (ht : s.dragHT t = true) :
    (step s (DEvent.drop t)).calls = s.calls ++ [⟨none, [t]⟩] := by
  simp [step, ht, handleDrop, hde]

/-- Witness for C10 on a freshly initialised 1x1 instance. -/
theorem c10_drop_without_dragstart_witness :
    (step (mkDnD 1 1) (DEvent.drop 0)).calls = (mkDnD 1 1).calls ++ [⟨none, [0]⟩] :=
  c10_drop_without_dragstart (mkDnD 1 1) 0 (by decide) (by decide)

/-- Claim C9.  A cancel-key press with no selected draggable runs
_keyboardSelect on an empty collection, whose first-element draggable
attribute read is undefined, so the target branch runs and clears the
selected marker from every target; no callback fires. -/
theorem c9_cancel_clears_target (s : Dnd)
    (hnd : selectedDraggables s = []) (_hst : selectedTargets s ≠ [])
    (hctx : s.ctxKeydown = true) :
    selectedTargets (step s (DEvent.keydownCtx 27)) = [] ∧
    (step s (DEvent.keydownCtx 27)).calls = s.calls := by
  have hstep : step s (DEvent.keydownCtx 27) = pdef (keyboardSelect s []) := by
    simp [step, hctx, ESCAPE_KEY, hnd]
  constructor
  · rw [hstep, selectedTargets_pdef, keyboardSelect_nil_selectedT]
  · rw [hstep]
    show (pdef (keyboardSelect s [])).calls = s.calls
    simp [pdef, keyboardSelect_nil_calls]

/-- Witness for C9: select target 0 by click, then press Escape. -/
theorem c9_cancel_clears_target_witness :
    selectedTargets (step (run (mkDnD 1 1) [DEvent.clickTg 0]) (DEvent.keydownCtx 27)) = [] ∧
    (step (run (mkDnD 1 1) [DEvent.clickTg 0]) (DEvent.keydownCtx 27)).calls =
      (run (mkDnD 1 1) [DEvent.clickTg 0]).calls :=
  c9_cancel_clears_target (run (mkDnD 1 1) [DEvent.clickTg 0])
    (by decide) (by decide) (by decide)

/-- Claim C3.  Over every sequence of input events on an initialised
controller, at most one draggable and at most one target carry the selected
marker; and an activation (click with its handler attached) of an element
first clears the selected marker on all siblings of the same set while
leaving the other set's selected markers untouched. -/
theorem c3_selection_invariant :
    (∀ (nD nT : Nat) (evs : List DEvent),
      (selectedDraggables (run (mkDnD nD nT) evs)).length ≤ 1 ∧
      (selectedTargets (run (mkDnD nD nT) evs)).length ≤ 1) ∧
    (∀ (s : Dnd) (d : Nat), s.clickHD d = true → s.draggableAttr d = true →
      ((∀ j, j < s.nD → j ≠ d → (step s (DEvent.clickDr d)).selDC j = false) ∧
       (step s (DEvent.clickDr d)).selTC = s.selTC)) ∧
    (∀ (s : Dnd) (t : Nat), s.clickHT t = true →
      ((∀ j, j < s.nT → j ≠ t → (step s (DEvent.clickTg t)).selTC j = false) ∧
       (step s (DEvent.clickTg t)).selDC = s.selDC)) := by
  refine ⟨?_, ?_, ?_⟩
  · intro nD nT evs
    have h := inv_run (mkDnD nD nT) evs (inv_mkDnD nD nT)
    exact ⟨h.2.2.2.1, h.2.2.2.2⟩
  · intro s d hcl hattr
    have hstep : step s (DEvent.clickDr d) = pdef (keyboardSelect s [(Side.dr, d)]) := by
      simp [step, hcl]
    constructor
    · intro j hj hne
      rw [hstep]
      show (keyboardSelect s [(Side.dr, d)]).selDC j = false
      rw [keyboardSelect_dr_selDC s d hattr]
      simp [updAt, updAll, hne, hj]
    · rw [hstep]
      show (keyboardSelect s [(Side.dr, d)]).selTC = s.selTC
      exact keyboardSelect_dr_selTC s d hattr
  · intro s t hcl
    have hstep : step s (DEvent.clickTg t) = pdef (keyboardSelect s [(Side.tg, t)]) := by
      simp [step, hcl]
    constructor
    · intro j hj hne
      rw [hstep]
      show (keyboardSelect s [(Side.tg, t)]).selTC j = false
      rw [keyboardSelect_tg_selTC]
      simp [updAt, updAll, hne, hj]
    · rw [hstep]
      show (keyboardSelect s [(Side.tg, t)]).selDC = s.selDC
      exact keyboardSelect_tg_selDC s t

/-- Witness for C3 at concrete inputs. -/
theorem c3_selection_invariant_witness :
    ((selectedDraggables (run (mkDnD 2 2)
        [DEvent.clickDr 0, DEvent.clickDr 1, DEvent.clickTg 1])).length ≤ 1 ∧
     (selectedTargets (run (mkDnD 2 2)
        [DEvent.clickDr 0, DEvent.clickDr 1, DEvent.clickTg 1])).length ≤ 1) ∧
    (step (mkDnD 2 2) (DEvent.clickDr 0)).selDC 1 = false ∧
    (step (mkDnD 2 2) (DEvent.clickDr 0)).selTC = (mkDnD 2 2).selTC := by
  have h1 := c3_selection_invariant.1 2 2 [DEvent.clickDr 0, DEvent.clickDr 1, DEvent.clickTg 1]
  have h2 := c3_selection_invariant.2.1 (mkDnD 2 2) 0 (by decide) (by decide)
  exact ⟨h1, h2.1 1 (by decide) (by decide), h2.2⟩

/-- Claim C4.  A discrete selection toggle dispatches the callback exactly
once, with the pair of selection lists, precisely when afterwards exactly
one draggable and exactly one target are selected; when either selection is
empty after the toggle, the call log is unchanged.  The at-most-one bounds
make the singleton and empty cases exhaustive. -/
theorem c4_discrete_dispatch (s : Dnd) (el : Side × Nat)
    (hattr : ∀ d, el = (Side.dr, d) → s.draggableAttr d = true)
    (hD : (selectedDraggables s).length ≤ 1)
    (hT : (selectedTargets s).length ≤ 1) :
    ((selectedDraggables (keyboardSelect s [el])).length ≤ 1 ∧
     (selectedTargets (keyboardSelect s [el])).length ≤ 1) ∧
    (∀ d t, selectedDraggables (keyboardSelect s [el]) = [d] →
      selectedTargets (keyboardSelect s [el]) = [t] →
      (keyboardSelect s [el]).calls = s.calls ++ [⟨some [d], [t]⟩]) ∧
    ((selectedDraggables (keyboardSelect s [el]) = [] ∨
      selectedTargets (keyboardSelect s [el]) = []) →
      (keyboardSelect s [el]).calls = s.calls) := by
  obtain ⟨sd, i⟩ := el
  refine ⟨?_, ?_, ?_⟩
  · cases sd with
    | dr =>
        have ha := hattr i rfl
        constructor
        · rw [keyboardSelect_dr_selectedD s i ha]
          split <;> simp
        · rw [keyboardSelect_dr_selectedT s i ha]
          exact hT
    | tg =>
        constructor
        · rw [keyboardSelect_tg_selectedD]
          exact hD
        · rw [keyboardSelect_tg_selectedT]
          split <;> simp
  · intro d t hd2 ht2
    rw [keyboardSelect_calls_paired s [(sd, i)] (by rw [hd2]; simp) (by rw [ht2]; simp),
      hd2, ht2]
  · intro h
    exact keyboardSelect_calls_unpaired s [(sd, i)] h

/-- Witness for C4: with target 0 already selected, toggling draggable 1
dispatches exactly one call with that pair. -/
theorem c4_discrete_dispatch_witness :
    (keyboardSelect (run (mkDnD 2 2) [DEvent.clickTg 0]) [(Side.dr, 1)]).calls =
      (run (mkDnD 2 2) [DEvent.clickTg 0]).calls ++ [⟨some [1], [0]⟩] := by
  have h := c4_discrete_dispatch (run (mkDnD 2 2) [DEvent.clickTg 0]) (Side.dr, 1)
    (by
      intro d hd
      have h1 : (1 : Nat) = d := congrArg Prod.snd hd
      cases h1
      decide)
    (by decide) (by decide)
  exact h.2.1 1 0 (by decide) (by decide)

/-- Equation for _handleDragEnd when a drag element is stored. -/
theorem handleDragEnd_some (s : Dnd) (de : Nat) (h : s.dragElement = some de) :
    handleDragEnd s =
      { s with movingC := updAt de false s.movingC,
               availC := updAll s.nT false s.availC,
               grabbed := fun i => if i = de then some false else s.grabbed i } := by
  simp [handleDragEnd, h]

/-- Claim C6.  A full gesture dragstart on D, any run of dragenter,
dragleave, dragover and drop events, then dragend, returns the moving
marker of D and the available marker of every target to their pre-gesture
values, drop or no drop, starting from any pre-gesture state in which those
markers are clear (as in every state reachable through non-overlapping
gestures). -/
theorem c6_gesture_round_trip (s : Dnd) (d : Nat) (evs : List DEvent)
    (hevs : ∀ e ∈ evs, interEvent e = true)
    (hm : s.movingC d = false) (ha : ∀ t, s.availC t = false) :
    (run s (DEvent.dragstart d :: (evs ++ [DEvent.dragend d]))).movingC d = s.movingC d ∧
    (∀ t, (run s (DEvent.dragstart d :: (evs ++ [DEvent.dragend d]))).availC t =
      s.availC t) := by
  have hsplit : run s (DEvent.dragstart d :: (evs ++ [DEvent.dragend d])) =
      step (run (step s (DEvent.dragstart d)) evs) (DEvent.dragend d) := by
    simp [run, List.foldl_cons, List.foldl_append]
  by_cases hd : s.dragHD d = true
  · have h1 : step s (DEvent.dragstart d) = handleDragStart s d := by simp [step, hd]
    have hpres := inter_run_preserve (handleDragStart s d) evs hevs
    have hde : (run (handleDragStart s d) evs).dragElement = some d := by
      rw [hpres.2.2]; rfl
    have hhd : (run (handleDragStart s d) evs).dragHD d = true := by
      rw [run_dragHD]; exact hd
    have hnt : (run (handleDragStart s d) evs).nT = s.nT := by
      rw [run_nT]; rfl
    have hstep2 : step (run (handleDragStart s d) evs) (DEvent.dragend d) =
        handleDragEnd (run (handleDragStart s d) evs) := by
      simp [step, hhd]
    rw [hsplit, h1, hstep2, handleDragEnd_some _ d hde]
    constructor
    · show updAt d false (run (handleDragStart s d) evs).movingC d = s.movingC d
      simp [updAt, hm]
    · intro t
      show updAll (run (handleDragStart s d) evs).nT false
          (run (handleDragStart s d) evs).availC t = s.availC t
      rw [hnt, hpres.2.1]
      by_cases htn : t < s.nT
      · simp [updAll, htn, handleDragStart, ha t]
      · simp [updAll, htn, handleDragStart]
  · have h1 : step s (DEvent.dragstart d) = s := by simp [step, hd]
    have hpres := inter_run_preserve s evs hevs
    have hhd : (run s evs).dragHD d = s.dragHD d := by rw [run_dragHD]
    have hstep2 : step (run s evs) (DEvent.dragend d) = run s evs := by
      simp [step, hhd, hd]
    rw [hsplit, h1, hstep2]
    exact ⟨by rw [hpres.1], fun t => by rw [hpres.2.1]⟩

/-- Witness for C6 on a gesture containing a drop. -/
theorem c6_gesture_round_trip_witness :
    (run (mkDnD 1 1) (DEvent.dragstart 0 ::
        ([DEvent.dragenter 0, DEvent.dragover 0, DEvent.drop 0] ++
          [DEvent.dragend 0]))).movingC 0 = (mkDnD 1 1).movingC 0 ∧
    (run (mkDnD 1 1) (DEvent.dragstart 0 ::
        ([DEvent.dragenter 0, DEvent.dragover 0, DEvent.drop 0] ++
          [DEvent.dragend 0]))).availC 0 = (mkDnD 1 1).availC 0 := by
  have h := c6_gesture_round_trip (mkDnD 1 1) 0
    [DEvent.dragenter 0, DEvent.dragover 0, DEvent.drop 0]
    (by decide) rfl (fun t => rfl)
  exact ⟨h.1, h.2 0⟩

/-- Claim C7.  Dropping on target T after dragstart on D within the same
gesture, with only dragover events in between, invokes the callback with
the pair D, T exactly once; and every dragover delivery on a target with
its handler attached calls preventDefault. -/
theorem c7_drop_dispatch_and_dragover (s : Dnd) (d t : Nat) (evs : List DEvent)
    (hevs : ∀ e ∈ evs, ∃ t0, e = DEvent.dragover t0)
    (hd : s.dragHD d = true) (ht : s.dragHT t = true) :
    (run s (DEvent.dragstart d :: (evs ++ [DEvent.drop t]))).calls =
      s.calls ++ [⟨some [d], [t]⟩] ∧
    (∀ (u : Dnd) (t2 : Nat), u.dragHT t2 = true →
      (step u (DEvent.dragover t2)).prevented = u.prevented + 1) := by
  constructor
  · have hsplit : run s (DEvent.dragstart d :: (evs ++ [DEvent.drop t])) =
        step (run (step s (DEvent.dragstart d)) evs) (DEvent.drop t) := by
      simp [run, List.foldl_cons, List.foldl_append]
    have h1 : step s (DEvent.dragstart d) = handleDragStart s d := by simp [step, hd]
    have hpres := dragover_run_preserve (handleDragStart s d) evs hevs
    have hde : (run (handleDragStart s d) evs).dragElement = some d := by
      rw [hpres.2]; rfl
    have hht : (run (handleDragStart s d) evs).dragHT t = true := by
      rw [run_dragHT]; exact ht
    have hcalls1 : (run (handleDragStart s d) evs).calls = s.calls := by
      rw [hpres.1]; rfl
    have hstep2 : step (run (handleDragStart s d) evs) (DEvent.drop t) =
        handleDrop (run (handleDragStart s d) evs) t := by
      simp [step, hht]
    rw [hsplit, h1, hstep2]
    show (run (handleDragStart s d) evs).calls ++
        [⟨(run (handleDragStart s d) evs).dragElement.map (fun d0 => [d0]), [t]⟩] =
      s.calls ++ [⟨some [d], [t]⟩]
    rw [hcalls1, hde]
    rfl
  · intro u t2 h
    simp [step, h, handleDragOver]

/-- Witness for C7 with one intervening dragover. -/
theorem c7_drop_dispatch_and_dragover_witness :
    (run (mkDnD 2 2) (DEvent.dragstart 1 :: ([DEvent.dragover 0] ++ [DEvent.drop 0]))).calls =
      (mkDnD 2 2).calls ++ [⟨some [1], [0]⟩] ∧
    (step (mkDnD 2 2) (DEvent.dragover 0)).prevented = (mkDnD 2 2).prevented + 1 := by
  have h := c7_drop_dispatch_and_dragover (mkDnD 2 2) 1 0 [DEvent.dragover 0]
    (by
      intro e he
      rw [List.mem_singleton] at he
      exact ⟨0, he⟩)
    (by decide) (by decide)
  exact ⟨h.1, h.2 (mkDnD 2 2) 0 (by decide)⟩

/-- Claim C8.  Cancel-key with a selected draggable (its attribute intact
and the scope handler attached) clears that draggable's selected marker,
focuses it, leaves target selections untouched and fires no callback;
cancel-key with nothing selected mutates no marker and fires no callback. -/
theorem c8_cancel_key :
    (∀ (s : Dnd) (d : Nat), selectedDraggables s = [d] → s.draggableAttr d = true →
      s.ctxKeydown = true →
      ((step s (DEvent.keydownCtx 27)).selDC d = false ∧
       (step s (DEvent.keydownCtx 27)).focusLog = [d] ∧
       (step s (DEvent.keydownCtx 27)).selTC = s.selTC ∧
       (step s (DEvent.keydownCtx 27)).calls = s.calls)) ∧
    (∀ s : Dnd, selectedDraggables s = [] → selectedTargets s = [] →
      s.ctxKeydown = true →
      ((step s (DEvent.keydownCtx 27)).selDC = s.selDC ∧
       (step s (DEvent.keydownCtx 27)).selTC = s.selTC ∧
       (step s (DEvent.keydownCtx 27)).movingC = s.movingC ∧
       (step s (DEvent.keydownCtx 27)).availC = s.availC ∧
       (step s (DEvent.keydownCtx 27)).hoverC = s.hoverC ∧
       (step s (DEvent.keydownCtx 27)).calls = s.calls ∧
       (step s (DEvent.keydownCtx 27)).focusLog = s.focusLog)) := by
  constructor
  · intro s d hsel hattr hctx
    obtain ⟨hdlt, hdsel⟩ :=
      mem_selectedDraggables s d (by rw [hsel]; exact List.mem_cons_self d [])
    have hstep : step s (DEvent.keydownCtx 27) =
        pdef { keyboardSelect s [(Side.dr, d)] with focusLog := [d] } := by
      simp [step, hctx, ESCAPE_KEY, hsel]
    refine ⟨?_, ?_, ?_, ?_⟩
    · rw [hstep]
      show (keyboardSelect s [(Side.dr, d)]).selDC d = false
      rw [keyboardSelect_dr_selDC s d hattr]
      simp [updAt, hdsel]
    · rw [hstep]; rfl
    · rw [hstep]
      show (keyboardSelect s [(Side.dr, d)]).selTC = s.selTC
      exact keyboardSelect_dr_selTC s d hattr
    · rw [hstep]
      show (keyboardSelect s [(Side.dr, d)]).calls = s.calls
      apply keyboardSelect_calls_unpaired
      left
      rw [keyboardSelect_dr_selectedD s d hattr]
      simp [hdsel]
  · intro s hnd hnt hctx
    have hstep : step s (DEvent.keydownCtx 27) = pdef (keyboardSelect s []) := by
      simp [step, hctx, ESCAPE_KEY, hnd]
    have hT0 : ∀ j, j < s.nT → s.selTC j = false := by
      intro j hj
      have hfil := List.filter_eq_nil_iff.mp
        (show (List.range s.nT).filter s.selTC = [] from hnt)
      have := hfil j (List.mem_range.mpr hj)
      simpa using this
    refine ⟨?_, ?_, ?_, ?_, ?_, ?_, ?_⟩
    · rw [hstep]
      show (keyboardSelect s []).selDC = s.selDC
      exact keyboardSelect_nil_selDC s
    · rw [hstep]
      show (keyboardSelect s []).selTC = s.selTC
      rw [keyboardSelect_nil_selTC]
      funext j
      by_cases hj : j < s.nT
      · simp [updAll, hj, hT0 j hj]
      · simp [updAll, hj]
    · rw [hstep]
      show (keyboardSelect s []).movingC = s.movingC
      exact keyboardSelect_movingC s []
    · rw [hstep]
      show (keyboardSelect s []).availC = s.availC
      exact keyboardSelect_availC s []
    · rw [hstep]
      show (keyboardSelect s []).hoverC = s.hoverC
      exact keyboardSelect_hoverC s []
    · rw [hstep]
      show (keyboardSelect s []).calls = s.calls
      exact keyboardSelect_nil_calls s
    · rw [hstep]
      show (keyboardSelect s []).focusLog = s.focusLog
      exact keyboardSelect_focusLog s []

/-- Witness for C8: both branches at concrete inputs. -/
theorem c8_cancel_key_witness :
    ((step (run (mkDnD 1 1) [DEvent.clickDr 0]) (DEvent.keydownCtx 27)).selDC 0 = false ∧
     (step (run (mkDnD 1 1) [DEvent.clickDr 0]) (DEvent.keydownCtx 27)).focusLog = [0]) ∧
    (step (mkDnD 1 1) (DEvent.keydownCtx 27)).calls = (mkDnD 1 1).calls := by
  have h1 := c8_cancel_key.1 (run (mkDnD 1 1) [DEvent.clickDr 0]) 0
    (by decide) (by decide) (by decide)
  have h2 := c8_cancel_key.2 (mkDnD 1 1) (by decide) (by decide) (by decide)
  exact ⟨⟨h1.1, h1.2.1⟩, h2.2.2.2.2.2.1⟩
